import Mathlib

/-!
Verification of the grocery-scheduler slot generator (`src/server.py`).

Shallow embedding conventions:
* Timestamps (`datetime`) are modelled as `Int` minutes since an epoch that
  falls on a Monday 00:00; `timedelta(days=7)` is `10080` minutes,
  `timedelta(hours=1)` is `60`.
* `datetime.date()` truncation is `Int.fdiv · 1440`; `strftime('%A')` is the
  weekday index `(dateIndex.emod 7).toNat` rendered through the day-name
  tables below.
* Python `float` confidence scores only ever hold the literals `0.8`/`0.6`
  and are only compared for order, so they are modelled as `ℚ`
  (`mkRat 8 10`/`mkRat 6 10`, since `mkRat` is kernel-reducible); the mock
  store coordinates are likewise exact `mkRat` values of the source decimals.
* Random `uuid4` ids are nondeterministic and are modelled as `""` where the
  generator creates records.
* `Except String` models Python exceptions (`strptime` `ValueError`,
  FastAPI `HTTPException`).
-/

/-- `DayOfWeek` enum from the source (`class DayOfWeek(str, Enum)`). -/
inductive DayOfWeek where
  | monday
  | tuesday
  | wednesday
  | thursday
  | friday
  | saturday
  | sunday
deriving DecidableEq, Repr

/-- The `.value` string of each enum member, as in the source. -/
def DayOfWeek.value : DayOfWeek → String
  | .monday => "monday"
  | .tuesday => "tuesday"
  | .wednesday => "wednesday"
  | .thursday => "thursday"
  | .friday => "friday"
  | .saturday => "saturday"
  | .sunday => "sunday"

/-- `PreferredHours` model: times are `"HH:MM"` strings as in the source. -/
structure PreferredHours where
  start_time : String
  end_time : String
  days : List DayOfWeek
deriving DecidableEq, Repr

/-- `UserPreferences` model; the `id`/`created_at`/`updated_at` fields
(uuid and wall-clock defaults, unused by the generator) are omitted. -/
structure UserPreferences where
  user_id : String
  home_address : String
  preferred_stores : List String
  shopping_duration_minutes : Int
  preferred_hours : List PreferredHours
deriving DecidableEq, Repr

/-- `CalendarEvent` model. -/
structure CalendarEvent where
  id : String
  title : String
  start_time : Int
  end_time : Int
  location : Option String
deriving DecidableEq, Repr

/-- `GroceryStore` model; `lat`/`lng`/`distance_km` are opaque numeric data
(never computed with), modelled as `ℚ`. -/
structure GroceryStore where
  id : String
  name : String
  address : String
  lat : ℚ
  lng : ℚ
  distance_km : Option ℚ
deriving DecidableEq, Repr

/-- `ScheduleSuggestion` model (uuid `id` is `""` when generated). -/
structure ScheduleSuggestion where
  id : String
  suggested_time : Int
  duration_minutes : Int
  store : GroceryStore
  reason : String
  travel_time_minutes : Int
  confidence_score : ℚ
deriving DecidableEq, Repr

/-- `WeeklySchedule` model (uuid default omitted from generation claims;
kept as plain data for the persistence round-trip claim). -/
structure WeeklySchedule where
  id : String
  user_id : String
  week_start : Int
  suggestions : List ScheduleSuggestion
  approved_suggestion_id : Option String
  status : String
  created_at : Int
deriving DecidableEq, Repr

/-- `MOCK_GROCERY_STORES` from the source. -/
def MOCK_GROCERY_STORES : List GroceryStore :=
  [ { id := "1", name := "Whole Foods Market", address := "100 Organic St",
      lat := mkRat 407128 10000, lng := mkRat (-740060) 10000, distance_km := none },
    { id := "2", name := "Trader Joe's", address := "200 Affordable Ave",
      lat := mkRat 407589 10000, lng := mkRat (-739851) 10000, distance_km := none },
    { id := "3", name := "Safeway", address := "300 Convenient Blvd",
      lat := mkRat 407505 10000, lng := mkRat (-739934) 10000, distance_km := none },
    { id := "4", name := "Target Grocery", address := "400 Everything Dr",
      lat := mkRat 407282 10000, lng := mkRat (-737949) 10000, distance_km := none } ]

/-- `SchedulingService.calculate_travel_time`: constant 15 minutes. -/
def calculate_travel_time (from_location : String) (to_store : GroceryStore) : Int :=
  15

/-- `SchedulingService.find_nearby_stores`: first 2 mock stores. -/
def find_nearby_stores (location : String) : List GroceryStore :=
  MOCK_GROCERY_STORES.take 2

/-- `SchedulingService.get_calendar_events`: keeps the events whose
`start_time` satisfies `start_date <= event.start_time <= end_date`.
The module-level `MOCK_CALENDAR_EVENTS` global (whose value depends on
`datetime.now()`) is passed in as the `all_events` parameter. -/
def get_calendar_events (all_events : List CalendarEvent) (user_id : String)
    (start_date end_date : Int) : List CalendarEvent :=
  all_events.filter fun e => decide (start_date ≤ e.start_time ∧ e.start_time ≤ end_date)

/-- Decimal digit character table (kernel-friendly stand-in for `chr(48+d)`). -/
def digitChar (d : Nat) : Char :=
  match d with
  | 0 => '0'
  | 1 => '1'
  | 2 => '2'
  | 3 => '3'
  | 4 => '4'
  | 5 => '5'
  | 6 => '6'
  | 7 => '7'
  | 8 => '8'
  | _ => '9'

/-- Numeric value of a decimal digit character. -/
def digitVal (c : Char) : Nat := c.toNat - 48

/-- Whether a character is a decimal digit (`'0'`-`'9'`). -/
def isDigitChar (c : Char) : Bool := 48 ≤ c.toNat && c.toNat ≤ 57

/-- Left-to-right decimal accumulator: reads digit characters, `none` on a
non-digit. -/
def decodeNatAux : Nat → List Char → Option Nat
  | acc, [] => some acc
  | acc, c :: cs => if isDigitChar c then decodeNatAux (acc * 10 + digitVal c) cs else none

/-- `datetime.strptime(s, "%H:%M").time()` as minutes since midnight:
1-2 digit hour `0..23`, a literal `':'`, 1-2 digit minute `0..59`, with the
whole string consumed.  Returns `none` where `strptime` raises `ValueError`. -/
def parseTime (s : String) : Option Int :=
  match s.data.splitOn ':' with
  | [h, m] =>
    if 1 ≤ h.length && h.length ≤ 2 && 1 ≤ m.length && m.length ≤ 2 then
      match decodeNatAux 0 h, decodeNatAux 0 m with
      | some hv, some mv =>
        if hv ≤ 23 && mv ≤ 59 then some (60 * hv + mv) else none
      | _, _ => none
    else none
  | _ => none

/-- Lower-case weekday names indexed Monday = 0 (Python `strftime('%A').lower()`
with the minutes-since-Monday-epoch convention). -/
def dayNameLower (n : Nat) : String :=
  match n with
  | 0 => "monday"
  | 1 => "tuesday"
  | 2 => "wednesday"
  | 3 => "thursday"
  | 4 => "friday"
  | 5 => "saturday"
  | _ => "sunday"

/-- Capitalised weekday names (Python `strftime('%A')`). -/
def dayNameCap (n : Nat) : String :=
  match n with
  | 0 => "Monday"
  | 1 => "Tuesday"
  | 2 => "Wednesday"
  | 3 => "Thursday"
  | 4 => "Friday"
  | 5 => "Saturday"
  | _ => "Sunday"

/-- The slot/event conflict predicate, exactly the source's
`(slot_start <= e.start_time <= slot_end_time) or
 (slot_start <= e.end_time <= slot_end_time) or
 (e.start_time <= slot_start and e.end_time >= slot_end_time)`. -/
def conflicts (slot_start slot_end_time : Int) (e : CalendarEvent) : Prop :=
  (slot_start ≤ e.start_time ∧ e.start_time ≤ slot_end_time) ∨
  (slot_start ≤ e.end_time ∧ e.end_time ≤ slot_end_time) ∨
  (e.start_time ≤ slot_start ∧ slot_end_time ≤ e.end_time)

instance (slot_start slot_end_time : Int) (e : CalendarEvent) :
    Decidable (conflicts slot_start slot_end_time e) := by
  unfold conflicts
  infer_instance

/-- Body of the slot `while` loop: if no fetched event conflicts with the
candidate slot, emit one suggestion per nearby store. -/
def slotBody (events : List CalendarEvent) (preferences : UserPreferences)
    (wd : Nat) (slot_start : Int) : List ScheduleSuggestion :=
  let slot_end_time := slot_start + preferences.shopping_duration_minutes
  if (events.filter fun e => decide (conflicts slot_start slot_end_time e)).isEmpty then
    (find_nearby_stores preferences.home_address).map fun store =>
      { id := ""
        suggested_time := slot_start
        duration_minutes := preferences.shopping_duration_minutes
        store := store
        reason := "Free time on " ++ dayNameCap wd ++ " during your preferred hours"
        travel_time_minutes := calculate_travel_time preferences.home_address store
        confidence_score :=
          if dayNameLower wd = "saturday" ∨ dayNameLower wd = "sunday" then mkRat 8 10
          else mkRat 6 10 }
  else []

/-- Fuel-indexed rendition of the slot `while` loop: run the body while
`current_time + shopping_duration_minutes <= slot_end`, advancing
`current_time` by one hour each iteration, giving up after `fuel` steps. -/
def slotLoopF (events : List CalendarEvent) (preferences : UserPreferences)
    (wd : Nat) (slot_end : Int) : Nat → Int → List ScheduleSuggestion
  | 0, _ => []
  | fuel + 1, current_time =>
    if current_time + preferences.shopping_duration_minutes ≤ slot_end then
      slotBody events preferences wd current_time ++
        slotLoopF events preferences wd slot_end fuel (current_time + 60)
    else []

/-- The slot `while` loop, run with a fuel budget that provably covers every
iteration the loop can perform (`slotLoop_unfold` below recovers the loop's
defining equation, and `slotLoopF_eq_slotLoop` shows any fuel of at least
one-sixtieth of this bound already suffices). -/
def slotLoop (events : List CalendarEvent) (preferences : UserPreferences)
    (wd : Nat) (slot_end current_time : Int) : List ScheduleSuggestion :=
  slotLoopF events preferences wd slot_end
    (slot_end - preferences.shopping_duration_minutes - current_time + 60).toNat current_time

/-- The start instants the slot loop visits and processes (the loop's
enumeration skeleton). -/
def candidateStarts (dur slot_end current : Int) : List Int :=
  if h : current + dur ≤ slot_end then current :: candidateStarts dur slot_end (current + 60)
  else []
termination_by (slot_end - dur - current + 60).toNat
decreasing_by omega

/-- The per-day loop over the matching preferred-hour windows: parse the
window's times with `strptime` (propagating its `ValueError`) and scan its
slots. -/
def runWindows (events : List CalendarEvent) (preferences : UserPreferences)
    (wd : Nat) (dateIndex : Int) :
    List PreferredHours → Except String (List ScheduleSuggestion)
  | [] => .ok []
  | ph :: rest =>
    match parseTime ph.start_time with
    | none => .error ("time data '" ++ ph.start_time ++ "' does not match format")
    | some st =>
      match parseTime ph.end_time with
      | none => .error ("time data '" ++ ph.end_time ++ "' does not match format")
      | some et =>
        match runWindows events preferences wd dateIndex rest with
        | .error msg => .error msg
        | .ok restSuggs =>
          .ok (slotLoop events preferences wd (1440 * dateIndex + et)
                (1440 * dateIndex + st) ++ restSuggs)

/-- One iteration of the `for day_offset in range(7)` loop: weekday of
`week_start + day_offset` days, windows whose `days` contain it, slot scan. -/
def runDay (events : List CalendarEvent) (preferences : UserPreferences)
    (week_start : Int) (day_offset : Nat) : Except String (List ScheduleSuggestion) :=
  let current_date := week_start + 1440 * (day_offset : Int)
  let dateIndex := Int.fdiv current_date 1440
  let wd := (Int.emod dateIndex 7).toNat
  let day_name := dayNameLower wd
  let preferred_for_day :=
    preferences.preferred_hours.filter fun ph => (ph.days.map DayOfWeek.value).contains day_name
  runWindows events preferences wd dateIndex preferred_for_day

/-- The whole `for day_offset in range(7)` loop over a given list of offsets. -/
def runDays (events : List CalendarEvent) (preferences : UserPreferences)
    (week_start : Int) : List Nat → Except String (List ScheduleSuggestion)
  | [] => .ok []
  | d :: ds =>
    match runDay events preferences week_start d with
    | .error msg => .error msg
    | .ok l =>
      match runDays events preferences week_start ds with
      | .error msg => .error msg
      | .ok ls => .ok (l ++ ls)

/-- Stable insertion of a suggestion into a confidence-descending list:
the inserted element goes before the first element of not-larger score, so
earlier-discovered elements win ties.  Extensionally equal to what Python's
stable `sorted(..., key=score, reverse=True)` produces. -/
def insertDesc (x : ScheduleSuggestion) :
    List ScheduleSuggestion → List ScheduleSuggestion
  | [] => [x]
  | y :: ys =>
    if y.confidence_score ≤ x.confidence_score then x :: y :: ys
    else y :: insertDesc x ys

/-- Model of `sorted(suggestions, key=lambda x: x.confidence_score, reverse=True)`
(a stable descending sort). -/
def sortDesc : List ScheduleSuggestion → List ScheduleSuggestion
  | [] => []
  | x :: xs => insertDesc x (sortDesc xs)

/-- `SchedulingService.generate_schedule_suggestions`.  The module global
`MOCK_CALENDAR_EVENTS` is the `all_events` parameter; `Except.error` models a
raised exception (`strptime` `ValueError` on a malformed window time). -/
def generate_schedule_suggestions (all_events : List CalendarEvent)
    (preferences : UserPreferences) (week_start : Int) :
    Except String (List ScheduleSuggestion) :=
  let week_end := week_start + 10080
  let events := get_calendar_events all_events preferences.user_id week_start week_end
  match runDays events preferences week_start [0, 1, 2, 3, 4, 5, 6] with
  | .error msg => .error msg
  | .ok suggestions => .ok ((sortDesc suggestions).take 5)

/-- Dynamic JSON-ish value type for the MongoDB persistence helpers: the
Python `dict` values the source's `prepare_for_mongo`/`parse_from_mongo`
traverse (`str`, `datetime`, `int`, `float`, `None`, `list`, `dict`). -/
inductive MVal where
  | str : String → MVal
  | dt : Int → MVal
  | int : Int → MVal
  | rat : ℚ → MVal
  | null : MVal
  | list : List MVal → MVal
  | dict : List (String × MVal) → MVal

/-- Right-to-left decimal rendering of a natural number onto an accumulator. -/
def encodeNatChars (n : Nat) (acc : List Char) : List Char :=
  if n < 10 then digitChar n :: acc
  else encodeNatChars (n / 10) (digitChar (n % 10) :: acc)
termination_by n
decreasing_by omega

/-- Models `datetime.isoformat` on the minutes-since-epoch timestamp model:
an injective textual rendering of the timestamp (decimal, `'-'`-signed), with
`fromisoformat` as its left inverse.  The claims never inspect the text of
the serialized form, only that serialization round-trips. -/
def isoformat (t : Int) : String :=
  if t < 0 then ⟨'-' :: encodeNatChars (-t).toNat []⟩ else ⟨encodeNatChars t.toNat []⟩

/-- Models `datetime.fromisoformat`: parses exactly the strings `isoformat`
produces, returning `none` where Python raises (the caller's `try/except`
then leaves the field as a raw string). -/
def fromisoformat (s : String) : Option Int :=
  match s.data with
  | [] => Option.none
  | c :: cs =>
    if c = '-' then
      if cs = [] then Option.none
      else
        match decodeNatAux 0 cs with
        | some n => some (-(n : Int))
        | Option.none => Option.none
    else
      match decodeNatAux 0 (c :: cs) with
      | some n => some ((n : Int))
      | Option.none => Option.none

/-- `key.endswith(('_at', '_time'))` from `parse_from_mongo`. -/
def keyTriggersParse (k : String) : Bool :=
  "_at".data.isSuffixOf k.data || "_time".data.isSuffixOf k.data

mutual

/-- `prepare_for_mongo`: datetime values become ISO strings; for list values,
dict items are transformed recursively (other items, and nested dicts not
inside lists, are left untouched — exactly as in the source). -/
def prepare_for_mongo : List (String × MVal) → List (String × MVal)
  | [] => []
  | (k, MVal.dt t) :: rest => (k, MVal.str (isoformat t)) :: prepare_for_mongo rest
  | (k, MVal.list items) :: rest => (k, MVal.list (prepareItems items)) :: prepare_for_mongo rest
  | kv :: rest => kv :: prepare_for_mongo rest

/-- The `for i, item in enumerate(value)` inner loop of `prepare_for_mongo`. -/
def prepareItems : List MVal → List MVal
  | [] => []
  | MVal.dict d :: rest => MVal.dict (prepare_for_mongo d) :: prepareItems rest
  | x :: rest => x :: prepareItems rest

end

mutual

/-- `parse_from_mongo`: string values under a key ending in `_at`/`_time`
are parsed back to datetimes when possible (left alone when parsing fails);
dict items of list values are transformed recursively. -/
def parse_from_mongo : List (String × MVal) → List (String × MVal)
  | [] => []
  | (k, MVal.str s) :: rest =>
    (if keyTriggersParse k then
        match fromisoformat s with
        | some t => (k, MVal.dt t)
        | Option.none => (k, MVal.str s)
      else (k, MVal.str s)) :: parse_from_mongo rest
  | (k, MVal.list items) :: rest => (k, MVal.list (parseItems items)) :: parse_from_mongo rest
  | kv :: rest => kv :: parse_from_mongo rest

/-- The `for i, item in enumerate(value)` inner loop of `parse_from_mongo`. -/
def parseItems : List MVal → List MVal
  | [] => []
  | MVal.dict d :: rest => MVal.dict (parse_from_mongo d) :: parseItems rest
  | x :: rest => x :: parseItems rest

end

/-- Pydantic `.dict()` of a `GroceryStore` (declaration field order). -/
def storeDict (st : GroceryStore) : List (String × MVal) :=
  [("id", MVal.str st.id), ("name", MVal.str st.name), ("address", MVal.str st.address),
   ("lat", MVal.rat st.lat), ("lng", MVal.rat st.lng),
   ("distance_km", match st.distance_km with | some q => MVal.rat q | Option.none => MVal.null)]

/-- Pydantic `.dict()` of a `ScheduleSuggestion`: nested models become nested
dicts. -/
def suggestionDict (s : ScheduleSuggestion) : List (String × MVal) :=
  [("id", MVal.str s.id), ("suggested_time", MVal.dt s.suggested_time),
   ("duration_minutes", MVal.int s.duration_minutes),
   ("store", MVal.dict (storeDict s.store)),
   ("reason", MVal.str s.reason),
   ("travel_time_minutes", MVal.int s.travel_time_minutes),
   ("confidence_score", MVal.rat s.confidence_score)]

/-- Pydantic `.dict()` of a `WeeklySchedule`. -/
def weeklyScheduleDict (ws : WeeklySchedule) : List (String × MVal) :=
  [("id", MVal.str ws.id), ("user_id", MVal.str ws.user_id),
   ("week_start", MVal.dt ws.week_start),
   ("suggestions", MVal.list (ws.suggestions.map fun s => MVal.dict (suggestionDict s))),
   ("approved_suggestion_id",
     match ws.approved_suggestion_id with | some s => MVal.str s | Option.none => MVal.null),
   ("status", MVal.str ws.status), ("created_at", MVal.dt ws.created_at)]

/-- Value of a key in a dict (first binding wins, as in a Python dict whose
keys are unique). -/
def dictGet (k : String) (d : List (String × MVal)) : Option MVal :=
  (d.find? fun kv => kv.1 == k).map (·.2)

/-- The fields of a stored `weekly_schedules` document that
`approve_suggestion` touches or filters on. -/
structure ScheduleDoc where
  id : String
  user_id : String
  approved_suggestion_id : Option String
  status : String
deriving DecidableEq, Repr

/-- Models Mongo `update_one({"id": sid}, {"$set": {...}})`: rewrites the
first document matching the filter; the returned count is `modified_count`,
which counts documents actually changed (an update writing the values a
document already holds modifies nothing). -/
def update_one_approve : List ScheduleDoc → String → String → List ScheduleDoc × Nat
  | [], _, _ => ([], 0)
  | d :: rest, sid, gid =>
    if d.id = sid then
      let d' := { d with approved_suggestion_id := some gid, status := "approved" }
      (d' :: rest, if d' = d then 0 else 1)
    else
      let p := update_one_approve rest sid gid
      (d :: p.1, p.2)

/-- The `approve_suggestion` route: `$set` the approval fields on the
schedule document, then raise 404 ("Schedule not found") when
`result.modified_count == 0`. -/
def approve_suggestion (db : List ScheduleDoc) (schedule_id suggestion_id : String) :
    Except String (List ScheduleDoc) :=
  let p := update_one_approve db schedule_id suggestion_id
  if p.2 = 0 then .error "Schedule not found" else .ok p.1

/-- The power of ten with as many digits as its argument (decimal-length
measure used to state the decode/encode accumulator identity). -/
def tenPow (n : Nat) : Nat :=
  if n < 10 then 10 else 10 * tenPow (n / 10)
termination_by n
decreasing_by omega

/-- Placeholder store record (used only to name heads of concrete lists). -/
def dummyStore : GroceryStore :=
  { id := "", name := "", address := "", lat := 0, lng := 0, distance_km := none }

/-- Placeholder suggestion record (used only to name heads of concrete lists). -/
def dummySuggestion : ScheduleSuggestion :=
  { id := "", suggested_time := 0, duration_minutes := 0, store := dummyStore,
    reason := "", travel_time_minutes := 0, confidence_score := 0 }

/-- Concrete fixture: a Monday 09:30-10:00 event (week epoch Monday 00:00). -/
def c1ev : CalendarEvent :=
  { id := "w1", title := "Meeting", start_time := 570, end_time := 600, location := none }

/-- Concrete fixture: calendar with the single Monday-morning event. -/
def c1events : List CalendarEvent := [c1ev]

/-- Concrete fixture: Monday 09:00-12:00 window, 60-minute duration. -/
def c1prefs : UserPreferences :=
  { user_id := "u1", home_address := "1 Home St", preferred_stores := []
    shopping_duration_minutes := 60
    preferred_hours := [{ start_time := "09:00", end_time := "12:00", days := [.monday] }] }

/-- The generator's output on the `c1events`/`c1prefs` fixture. -/
def c1out : List ScheduleSuggestion :=
  (generate_schedule_suggestions c1events c1prefs 0).toOption.getD []

/-- Head of `c1out`. -/
def c1s : ScheduleSuggestion := c1out.headD dummySuggestion

/-- Concrete fixture for the spec's Saturday scenario: a Saturday 09:30-10:00
event (minutes 7770-7800 from the Monday-00:00 week epoch). -/
def c2event : CalendarEvent :=
  { id := "e1", title := "Busy", start_time := 7770, end_time := 7800, location := none }

/-- Concrete fixture for the spec's Saturday scenario: one Saturday
09:00-11:00 window, 60-minute duration. -/
def c2prefs : UserPreferences :=
  { user_id := "u1", home_address := "1 Home St", preferred_stores := []
    shopping_duration_minutes := 60
    preferred_hours := [{ start_time := "09:00", end_time := "11:00", days := [.saturday] }] }

/-- Concrete fixture: an event overlapping the window `[100, 200)` whose
`start_time` precedes the window. -/
def c3early : CalendarEvent :=
  { id := "x", title := "Early", start_time := 50, end_time := 150, location := none }

/-- Concrete fixture: an event starting exactly at the window end `200`. -/
def c3late : CalendarEvent :=
  { id := "y", title := "AtEnd", start_time := 200, end_time := 250, location := none }

/-- Concrete fixture: zero shopping duration, one Monday 09:00-11:00 window. -/
def c4xprefs : UserPreferences :=
  { user_id := "u1", home_address := "1 Home St", preferred_stores := []
    shopping_duration_minutes := 0
    preferred_hours := [{ start_time := "09:00", end_time := "11:00", days := [.monday] }] }

/-- Concrete fixture: 45-minute duration, one Tuesday 09:00-10:00 window. -/
def c4wprefs : UserPreferences :=
  { user_id := "u1", home_address := "1 Home St", preferred_stores := []
    shopping_duration_minutes := 45
    preferred_hours := [{ start_time := "09:00", end_time := "10:00", days := [.tuesday] }] }

/-- The generator's output on the `c4wprefs` fixture. -/
def c4wout : List ScheduleSuggestion :=
  (generate_schedule_suggestions [] c4wprefs 0).toOption.getD []

/-- Head of `c4wout`. -/
def c4ws : ScheduleSuggestion := c4wout.headD dummySuggestion

/-- Concrete fixture: no preferred windows at all. -/
def c5wprefs : UserPreferences :=
  { user_id := "u", home_address := "h", preferred_stores := []
    shopping_duration_minutes := 60, preferred_hours := [] }

/-- Concrete fixture: 120-minute duration (longer than a one-hour window). -/
def c6wprefs : UserPreferences :=
  { user_id := "u", home_address := "h", preferred_stores := []
    shopping_duration_minutes := 120
    preferred_hours := [{ start_time := "09:00", end_time := "10:00", days := [.monday] }] }

/-- Concrete fixture: negative duration, one Friday 22:00-23:00 window (the
slot scan overshoots midnight into Saturday). -/
def c7xprefs : UserPreferences :=
  { user_id := "u1", home_address := "1 Home St", preferred_stores := []
    shopping_duration_minutes := -180
    preferred_hours := [{ start_time := "22:00", end_time := "23:00", days := [.friday] }] }

/-- Concrete fixture: one Saturday 10:00-12:00 window, 60-minute duration. -/
def c7wprefs : UserPreferences :=
  { user_id := "u1", home_address := "1 Home St", preferred_stores := []
    shopping_duration_minutes := 60
    preferred_hours := [{ start_time := "10:00", end_time := "12:00", days := [.saturday] }] }

/-- The generator's output on the `c7wprefs` fixture. -/
def c7wout : List ScheduleSuggestion :=
  (generate_schedule_suggestions [] c7wprefs 0).toOption.getD []

/-- Head of `c7wout`. -/
def c7ws : ScheduleSuggestion := c7wout.headD dummySuggestion

/-- Concrete fixture: negative duration for the loop-termination bound. -/
def c10wprefs : UserPreferences :=
  { user_id := "u", home_address := "h", preferred_stores := []
    shopping_duration_minutes := -120, preferred_hours := [] }

/-- Concrete fixture: a schedule document already carrying the approval
values that a repeated approval request would `$set` again. -/
def c8doc : ScheduleDoc :=
  { id := "s1", user_id := "u1", approved_suggestion_id := some "g1", status := "approved" }

/-- Inserting with `insertDesc` is a permutation of consing. -/
theorem insertDesc_perm (x : ScheduleSuggestion) (l : List ScheduleSuggestion) :
    (insertDesc x l).Perm (x :: l) := by
  induction l with
  | nil => simp [insertDesc]
  | cons y ys ih =>
    by_cases h : y.confidence_score ≤ x.confidence_score
    · simp [insertDesc, h]
    · simpa [insertDesc, h] using ((ih.cons y).trans (List.Perm.swap x y ys))

/-- `insertDesc` preserves descending sortedness. -/
theorem insertDesc_pairwise (x : ScheduleSuggestion) (l : List ScheduleSuggestion)
    (hl : l.Pairwise fun a b => b.confidence_score ≤ a.confidence_score) :
    (insertDesc x l).Pairwise fun a b => b.confidence_score ≤ a.confidence_score := by
  induction l with
  | nil => simp [insertDesc]
  | cons y ys ih =>
    rcases List.pairwise_cons.mp hl with ⟨hy, hys⟩
    by_cases h : y.confidence_score ≤ x.confidence_score
    · rw [insertDesc, if_pos h]
      refine List.pairwise_cons.mpr ⟨?_, hl⟩
      intro b hb
      rcases List.mem_cons.mp hb with rfl | hb
      · exact h
      · exact le_trans (hy b hb) h
    · rw [insertDesc, if_neg h]
      refine List.pairwise_cons.mpr ⟨?_, ih hys⟩
      intro b hb
      rcases List.mem_cons.mp ((insertDesc_perm x ys).mem_iff.mp hb) with rfl | hb
      · exact le_of_lt (lt_of_not_le h)
      · exact hy b hb

/-- `sortDesc` permutes its input (no suggestion is lost or invented). -/
theorem sortDesc_perm (l : List ScheduleSuggestion) : (sortDesc l).Perm l := by
  induction l with
  | nil => simp [sortDesc]
  | cons x xs ih => exact (insertDesc_perm x (sortDesc xs)).trans (ih.cons x)

/-- `sortDesc` sorts by confidence score, descending. -/
theorem sortDesc_pairwise (l : List ScheduleSuggestion) :
    (sortDesc l).Pairwise fun a b => b.confidence_score ≤ a.confidence_score := by
  induction l with
  | nil => simp [sortDesc]
  | cons x xs ih => exact insertDesc_pairwise x (sortDesc xs) ih

/-- Filtering to one score value commutes with `insertDesc`: the elements
skipped over have strictly larger scores, so an inserted element lands before
every equal-scored element already present. -/
theorem insertDesc_filter (c : ℚ) (x : ScheduleSuggestion) (l : List ScheduleSuggestion) :
    (insertDesc x l).filter (fun s => s.confidence_score == c) =
      if x.confidence_score == c then
        x :: l.filter (fun s => s.confidence_score == c)
      else l.filter (fun s => s.confidence_score == c) := by
  induction l with
  | nil => by_cases hx : x.confidence_score == c <;> simp [insertDesc, hx]
  | cons y ys ih =>
    by_cases h : y.confidence_score ≤ x.confidence_score
    · rw [insertDesc, if_pos h]
      by_cases hx : x.confidence_score == c <;> simp [List.filter, hx]
    · rw [insertDesc, if_neg h]
      by_cases hx : x.confidence_score == c
      · have hxc : x.confidence_score = c := by simpa using hx
        have hy : ¬(y.confidence_score == c) := by
          simp only [beq_iff_eq]
          intro hyc
          exact h (le_of_eq (hyc.trans hxc.symm))
        simp [List.filter, hy, ih, hx]
      · by_cases hy : y.confidence_score == c <;> simp [List.filter, hy, ih, hx]

/-- Stability of `sortDesc`: for every score value, the subsequence of
elements carrying that score is unchanged — equal-scored suggestions keep
their discovery order. -/
theorem sortDesc_filter (c : ℚ) (l : List ScheduleSuggestion) :
    (sortDesc l).filter (fun s => s.confidence_score == c) =
      l.filter (fun s => s.confidence_score == c) := by
  induction l with
  | nil => rfl
  | cons x xs ih =>
    rw [sortDesc, insertDesc_filter]
    by_cases hx : x.confidence_score == c <;> simp [List.filter, hx, ih]

/-- Fuel irrelevance for the fuelled slot loop: any two fuel budgets covering
the iteration bound produce the same run. -/
theorem slotLoopF_congr (events : List CalendarEvent) (preferences : UserPreferences)
    (wd : Nat) (slot_end : Int) :
    ∀ (fuel₁ fuel₂ : Nat) (cur : Int),
      (slot_end - preferences.shopping_duration_minutes - cur + 60).toNat ≤ 60 * fuel₁ →
      (slot_end - preferences.shopping_duration_minutes - cur + 60).toNat ≤ 60 * fuel₂ →
      slotLoopF events preferences wd slot_end fuel₁ cur =
        slotLoopF events preferences wd slot_end fuel₂ cur := by
  intro fuel₁
  induction fuel₁ with
  | zero =>
    intro fuel₂ cur h₁ h₂
    have hcond : ¬ cur + preferences.shopping_duration_minutes ≤ slot_end := by omega
    cases fuel₂ with
    | zero => rfl
    | succ m =>
      show ([] : List ScheduleSuggestion) =
        if cur + preferences.shopping_duration_minutes ≤ slot_end then
          slotBody events preferences wd cur ++
            slotLoopF events preferences wd slot_end m (cur + 60)
        else []
      rw [if_neg hcond]
  | succ n ih =>
    intro fuel₂ cur h₁ h₂
    cases fuel₂ with
    | zero =>
      have hcond : ¬ cur + preferences.shopping_duration_minutes ≤ slot_end := by omega
      show (if cur + preferences.shopping_duration_minutes ≤ slot_end then
          slotBody events preferences wd cur ++
            slotLoopF events preferences wd slot_end n (cur + 60)
        else []) = ([] : List ScheduleSuggestion)
      rw [if_neg hcond]
    | succ m =>
      show (if cur + preferences.shopping_duration_minutes ≤ slot_end then
          slotBody events preferences wd cur ++
            slotLoopF events preferences wd slot_end n (cur + 60)
        else []) =
        (if cur + preferences.shopping_duration_minutes ≤ slot_end then
          slotBody events preferences wd cur ++
            slotLoopF events preferences wd slot_end m (cur + 60)
        else [])
      by_cases hcond : cur + preferences.shopping_duration_minutes ≤ slot_end
      · rw [if_pos hcond, if_pos hcond, ih m (cur + 60) (by omega) (by omega)]
      · rw [if_neg hcond, if_neg hcond]

/-- The defining equation of the `while` loop: process the current candidate
while the slot still fits, else stop. -/
theorem slotLoop_unfold (events : List CalendarEvent) (preferences : UserPreferences)
    (wd : Nat) (slot_end cur : Int) :
    slotLoop events preferences wd slot_end cur =
      if cur + preferences.shopping_duration_minutes ≤ slot_end then
        slotBody events preferences wd cur ++
          slotLoop events preferences wd slot_end (cur + 60)
      else [] := by
  unfold slotLoop
  by_cases hcond : cur + preferences.shopping_duration_minutes ≤ slot_end
  · rw [if_pos hcond]
    rw [slotLoopF_congr events preferences wd slot_end
      (slot_end - preferences.shopping_duration_minutes - cur + 60).toNat
      ((slot_end - preferences.shopping_duration_minutes - (cur + 60) + 60).toNat + 1)
      cur (by omega) (by omega)]
    show (if cur + preferences.shopping_duration_minutes ≤ slot_end then
        slotBody events preferences wd cur ++
          slotLoopF events preferences wd slot_end
            (slot_end - preferences.shopping_duration_minutes - (cur + 60) + 60).toNat (cur + 60)
      else []) = _
    rw [if_pos hcond]
  · rw [if_neg hcond]
    cases hF : (slot_end - preferences.shopping_duration_minutes - cur + 60).toNat with
    | zero => rfl
    | succ n =>
      show (if cur + preferences.shopping_duration_minutes ≤ slot_end then
          slotBody events preferences wd cur ++
            slotLoopF events preferences wd slot_end n (cur + 60)
        else []) = []
      rw [if_neg hcond]

/-- Everything the loop body records about an emitted suggestion: its start
instant, the configured duration, the constant travel time, the weekday
confidence score, and conflict-freeness against every fetched event. -/
theorem mem_slotBody {events : List CalendarEvent} {preferences : UserPreferences}
    {wd : Nat} {slot_start : Int} {s : ScheduleSuggestion}
    (hs : s ∈ slotBody events preferences wd slot_start) :
    s.suggested_time = slot_start ∧
      s.duration_minutes = preferences.shopping_duration_minutes ∧
      s.travel_time_minutes = 15 ∧
      s.store ∈ find_nearby_stores preferences.home_address ∧
      s.confidence_score =
        (if dayNameLower wd = "saturday" ∨ dayNameLower wd = "sunday" then mkRat 8 10
         else mkRat 6 10) ∧
      ∀ e ∈ events,
        ¬ conflicts slot_start (slot_start + preferences.shopping_duration_minutes) e := by
  by_cases hemp : (events.filter fun e =>
      decide (conflicts slot_start
        (slot_start + preferences.shopping_duration_minutes) e)).isEmpty
  · simp only [slotBody] at hs
    rw [if_pos hemp] at hs
    rcases List.mem_map.mp hs with ⟨store, hst, rfl⟩
    refine ⟨rfl, rfl, rfl, hst, rfl, ?_⟩
    intro e he hc
    have hnil := List.filter_eq_nil_iff.mp (List.isEmpty_iff.mp hemp) e he
    exact hnil (decide_eq_true hc)
  · simp only [slotBody] at hs
    rw [if_neg hemp] at hs
    exact absurd hs (List.not_mem_nil s)

/-- Provenance through the slot `while` loop: every emitted suggestion comes
from a body run at some hourly step `cur + 60*k` that satisfied the loop
condition. -/
theorem mem_slotLoop {events : List CalendarEvent} {preferences : UserPreferences}
    {wd : Nat} {slot_end : Int} {s : ScheduleSuggestion} :
    ∀ {cur : Int}, s ∈ slotLoop events preferences wd slot_end cur →
      ∃ k : ℕ, s ∈ slotBody events preferences wd (cur + 60 * k) ∧
        cur + 60 * k + preferences.shopping_duration_minutes ≤ slot_end := by
  intro cur
  induction cur using candidateStarts.induct preferences.shopping_duration_minutes slot_end with
  | case1 x hcond ih =>
    intro hs
    rw [slotLoop_unfold, if_pos hcond] at hs
    rcases List.mem_append.mp hs with h1 | h2
    · exact ⟨0, by simpa using h1, by simpa using hcond⟩
    · rcases ih h2 with ⟨k, hk1, hk2⟩
      refine ⟨k + 1, ?_, ?_⟩
      · have harg : x + 60 + 60 * (k : Int) = x + 60 * (((k + 1 : Nat) : Int)) := by
          push_cast
          ring
        rwa [harg] at hk1
      · have : x + 60 + 60 * (k : Int) + preferences.shopping_duration_minutes ≤ slot_end := hk2
        push_cast
        push_cast at this
        linarith
  | case2 x hcond =>
    intro hs
    rw [slotLoop_unfold, if_neg hcond] at hs
    exact absurd hs (List.not_mem_nil s)

/-- Membership in the loop's candidate enumeration: exactly the hourly steps
from the window start whose slot (of the configured duration) still ends by
`slot_end`; the first over-running candidate and all later ones are absent. -/
theorem mem_candidateStarts {dur slot_end : Int} :
    ∀ {cur t : Int},
      (t ∈ candidateStarts dur slot_end cur ↔
        ∃ k : ℕ, t = cur + 60 * k ∧ t + dur ≤ slot_end) := by
  intro cur
  induction cur using candidateStarts.induct dur slot_end with
  | case1 x hcond ih =>
    intro t
    constructor
    · intro ht
      rw [candidateStarts, dif_pos hcond] at ht
      rcases List.mem_cons.mp ht with rfl | ht
      · exact ⟨0, by simp, by simpa using hcond⟩
      · rcases (ih.mp ht) with ⟨k, rfl, hk⟩
        exact ⟨k + 1, by push_cast; ring, hk⟩
    · rintro ⟨k, rfl, hk⟩
      rw [candidateStarts, dif_pos hcond]
      cases k with
      | zero => simp
      | succ k =>
        refine List.mem_cons_of_mem _ (ih.mpr ⟨k, by push_cast; ring, ?_⟩)
        exact hk
  | case2 x hcond =>
    intro t
    constructor
    · intro ht
      rw [candidateStarts, dif_neg hcond] at ht
      exact absurd ht (List.not_mem_nil t)
    · rintro ⟨k, rfl, hk⟩
      exact absurd (by positivity : (0:Int) ≤ 60 * (k:Int)) (by intro h60; exact hcond (by linarith))

/-- The slot loop is the flat map of its body over the candidate enumeration. -/
theorem slotLoop_eq_flatMap (events : List CalendarEvent) (preferences : UserPreferences)
    (wd : Nat) (slot_end : Int) :
    ∀ cur, slotLoop events preferences wd slot_end cur =
      (candidateStarts preferences.shopping_duration_minutes slot_end cur).flatMap
        (slotBody events preferences wd) := by
  intro cur
  induction cur using candidateStarts.induct preferences.shopping_duration_minutes slot_end with
  | case1 x hcond ih =>
    rw [slotLoop_unfold, if_pos hcond, candidateStarts, dif_pos hcond, List.flatMap_cons, ih]
  | case2 x hcond =>
    rw [slotLoop_unfold, if_neg hcond, candidateStarts, dif_neg hcond, List.flatMap_nil]

/-- The fuelled loop agrees with the loop once the fuel covers the explicit
iteration bound: the `while` loop exits after finitely many steps for every
duration value, positive, zero or negative. -/
theorem slotLoopF_eq_slotLoop (events : List CalendarEvent) (preferences : UserPreferences)
    (wd : Nat) (slot_end : Int) :
    ∀ (fuel : Nat) (cur : Int),
      (slot_end - preferences.shopping_duration_minutes - cur + 60).toNat ≤ 60 * fuel →
      slotLoopF events preferences wd slot_end fuel cur =
        slotLoop events preferences wd slot_end cur := by
  intro fuel cur hfuel
  exact slotLoopF_congr events preferences wd slot_end fuel
    (slot_end - preferences.shopping_duration_minutes - cur + 60).toNat cur hfuel (by omega)

/-- A successfully parsed `"%H:%M"` time is a minute-of-day in `[0, 1439]`. -/
theorem parseTime_bounds {s : String} {v : Int} (h : parseTime s = some v) :
    0 ≤ v ∧ v ≤ 1439 := by
  unfold parseTime at h
  split at h
  · split at h
    · split at h
      · split at h
        · rename_i hrange
          injection h with h
          subst h
          simp only [Bool.and_eq_true, decide_eq_true_eq] at hrange
          omega
        · exact absurd h (by simp)
      · exact absurd h (by simp)
    · exact absurd h (by simp)
  · exact absurd h (by simp)

/-- Provenance through the per-day window loop: a suggestion in a successful
`runWindows` result comes from the slot scan of one of the windows, at the
window's parsed start/end times. -/
theorem mem_runWindows {events : List CalendarEvent} {preferences : UserPreferences}
    {wd : Nat} {dateIndex : Int} :
    ∀ {phs : List PreferredHours} {l : List ScheduleSuggestion},
      runWindows events preferences wd dateIndex phs = Except.ok l →
      ∀ {s : ScheduleSuggestion}, s ∈ l →
        ∃ ph ∈ phs, ∃ st et : Int,
          parseTime ph.start_time = some st ∧ parseTime ph.end_time = some et ∧
          s ∈ slotLoop events preferences wd (1440 * dateIndex + et) (1440 * dateIndex + st) := by
  intro phs
  induction phs with
  | nil =>
    intro l hl s hs
    simp only [runWindows] at hl
    injection hl with hl
    subst hl
    exact absurd hs (List.not_mem_nil s)
  | cons ph rest ih =>
    intro l hl s hs
    simp only [runWindows] at hl
    cases hst : parseTime ph.start_time with
    | none => rw [hst] at hl; exact absurd hl (by simp)
    | some st =>
      rw [hst] at hl
      cases het : parseTime ph.end_time with
      | none => rw [het] at hl; exact absurd hl (by simp)
      | some et =>
        rw [het] at hl
        cases hrest : runWindows events preferences wd dateIndex rest with
        | error msg => rw [hrest] at hl; exact absurd hl (by simp)
        | ok restS =>
          rw [hrest] at hl
          injection hl with hl
          subst hl
          rcases List.mem_append.mp hs with h1 | h2
          · exact ⟨ph, List.mem_cons_self ph rest, st, et, hst, het, h1⟩
          · rcases ih hrest h2 with ⟨ph', hph', st', et', hst', het', hmem⟩
            exact ⟨ph', List.mem_cons_of_mem ph hph', st', et', hst', het', hmem⟩

/-- Provenance through the day loop: a suggestion in a successful `runDays`
result comes from one of the day offsets' successful `runDay`. -/
theorem mem_runDays {events : List CalendarEvent} {preferences : UserPreferences}
    {week_start : Int} :
    ∀ {offsets : List Nat} {raw : List ScheduleSuggestion},
      runDays events preferences week_start offsets = Except.ok raw →
      ∀ {s : ScheduleSuggestion}, s ∈ raw →
        ∃ d ∈ offsets, ∃ l, runDay events preferences week_start d = Except.ok l ∧ s ∈ l := by
  intro offsets
  induction offsets with
  | nil =>
    intro raw hraw s hs
    simp only [runDays] at hraw
    injection hraw with hraw
    subst hraw
    exact absurd hs (List.not_mem_nil s)
  | cons d ds ih =>
    intro raw hraw s hs
    simp only [runDays] at hraw
    cases hd : runDay events preferences week_start d with
    | error msg => rw [hd] at hraw; exact absurd hraw (by simp)
    | ok l =>
      rw [hd] at hraw
      cases hds : runDays events preferences week_start ds with
      | error msg => rw [hds] at hraw; exact absurd hraw (by simp)
      | ok ls =>
        rw [hds] at hraw
        injection hraw with hraw
        subst hraw
        rcases List.mem_append.mp hs with h1 | h2
        · exact ⟨d, List.mem_cons_self d ds, l, hd, h1⟩
        · rcases ih hds h2 with ⟨d', hd', l', hl', hmem⟩
          exact ⟨d', List.mem_cons_of_mem d hd', l', hl', hmem⟩

/-- Destructor for a successful run of the generator: there is a raw
discovery-ordered suggestion list of which the result is the stably sorted,
truncated view. -/
theorem generate_ok_elim {all_events : List CalendarEvent} {preferences : UserPreferences}
    {week_start : Int} {out : List ScheduleSuggestion}
    (h : generate_schedule_suggestions all_events preferences week_start = Except.ok out) :
    ∃ raw, runDays
        (get_calendar_events all_events preferences.user_id week_start (week_start + 10080))
        preferences week_start [0, 1, 2, 3, 4, 5, 6] = Except.ok raw ∧
      out = (sortDesc raw).take 5 := by
  simp only [generate_schedule_suggestions] at h
  cases hrd : runDays
      (get_calendar_events all_events preferences.user_id week_start (week_start + 10080))
      preferences week_start [0, 1, 2, 3, 4, 5, 6] with
  | error msg => rw [hrd] at h; exact absurd h (by simp)
  | ok raw =>
    rw [hrd] at h
    injection h with h
    exact ⟨raw, rfl, h.symm⟩

/-- Floor-division base fact for the day-index computation. -/
theorem fdiv_1440 (D m : Int) (h0 : 0 ≤ m) (h1 : m < 1440) :
    (1440 * D + m).fdiv 1440 = D := by
  rw [Int.fdiv_eq_ediv _ (by norm_num)]
  omega

/-- `runDay` unfolded: the weekday index and date index of the day, and the
windows whose `days` name that weekday. -/
theorem runDay_eq (events : List CalendarEvent) (preferences : UserPreferences)
    (week_start : Int) (day_offset : Nat) :
    runDay events preferences week_start day_offset =
      runWindows events preferences
        ((((week_start + 1440 * (day_offset : Int)).fdiv 1440).emod 7).toNat)
        ((week_start + 1440 * (day_offset : Int)).fdiv 1440)
        (preferences.preferred_hours.filter fun ph =>
          (ph.days.map DayOfWeek.value).contains
            (dayNameLower ((((week_start + 1440 * (day_offset : Int)).fdiv 1440).emod 7).toNat))) :=
  rfl

/-- Reading one digit with the decimal accumulator. -/
theorem decodeNatAux_digit (acc d : Nat) (hd : d < 10) (cs : List Char) :
    decodeNatAux acc (digitChar d :: cs) = decodeNatAux (acc * 10 + d) cs := by
  interval_cases d <;> rfl

/-- Accumulator identity: decoding an encoded number continues the decode
with the number absorbed into the accumulator. -/
theorem decodeNatAux_encode (n : Nat) :
    ∀ acc cs, decodeNatAux acc (encodeNatChars n cs) =
      decodeNatAux (acc * tenPow n + n) cs := by
  induction n using Nat.strong_induction_on with
  | _ n ih =>
    intro acc cs
    by_cases h : n < 10
    · rw [encodeNatChars, if_pos h, tenPow, if_pos h, decodeNatAux_digit acc n h]
    · rw [encodeNatChars, if_neg h, tenPow, if_neg h]
      rw [ih (n / 10) (by omega) acc (digitChar (n % 10) :: cs)]
      rw [decodeNatAux_digit _ (n % 10) (by omega) cs]
      congr 1
      have hmod : n / 10 * 10 + n % 10 = n := by omega
      calc (acc * tenPow (n / 10) + n / 10) * 10 + n % 10
          = acc * (10 * tenPow (n / 10)) + (n / 10 * 10 + n % 10) := by ring
        _ = acc * (10 * tenPow (n / 10)) + n := by rw [hmod]

/-- Decoding inverts encoding on natural numbers. -/
theorem decode_encode (n : Nat) : decodeNatAux 0 (encodeNatChars n []) = some n := by
  rw [decodeNatAux_encode n 0 []]
  simp [decodeNatAux]

/-- The encoder always emits at least one character. -/
theorem encodeNatChars_ne_nil (n : Nat) : ∀ cs, encodeNatChars n cs ≠ [] := by
  induction n using Nat.strong_induction_on with
  | _ n ih =>
    intro cs
    by_cases h : n < 10
    · rw [encodeNatChars, if_pos h]
      exact List.cons_ne_nil _ _
    · rw [encodeNatChars, if_neg h]
      exact ih (n / 10) (by omega) _

/-- The encoder's first character is a digit. -/
theorem encodeNatChars_head (n : Nat) :
    ∀ cs, ∃ d, d < 10 ∧ ∃ rest, encodeNatChars n cs = digitChar d :: rest := by
  induction n using Nat.strong_induction_on with
  | _ n ih =>
    intro cs
    by_cases h : n < 10
    · rw [encodeNatChars, if_pos h]
      exact ⟨n, h, cs, rfl⟩
    · rw [encodeNatChars, if_neg h]
      exact ih (n / 10) (by omega) _

/-- A digit character is never the minus sign. -/
theorem digitChar_ne_dash (d : Nat) : digitChar d ≠ '-' := by
  unfold digitChar
  split <;> decide

/-- `fromisoformat` inverts `isoformat`: the timestamp serialization
round-trips. -/
theorem fromiso_iso (t : Int) : fromisoformat (isoformat t) = some t := by
  unfold isoformat
  by_cases h : t < 0
  · rw [if_pos h]
    show fromisoformat ⟨'-' :: encodeNatChars (-t).toNat []⟩ = some t
    show (if '-' = '-' then
        if encodeNatChars (-t).toNat [] = [] then Option.none
        else
          match decodeNatAux 0 (encodeNatChars (-t).toNat []) with
          | some n => some (-(n : Int))
          | Option.none => Option.none
      else
        match decodeNatAux 0 ('-' :: encodeNatChars (-t).toNat []) with
        | some n => some ((n : Int))
        | Option.none => Option.none) = some t
    rw [if_pos rfl, if_neg (encodeNatChars_ne_nil _ _), decode_encode]
    show some (-(((-t).toNat : Nat) : Int)) = some t
    congr 1
    omega
  · rw [if_neg h]
    obtain ⟨d, hd, rest, heq⟩ := encodeNatChars_head t.toNat []
    show fromisoformat ⟨encodeNatChars t.toNat []⟩ = some t
    unfold fromisoformat
    rw [heq]
    show (if digitChar d = '-' then
        if rest = [] then Option.none
        else
          match decodeNatAux 0 rest with
          | some n => some (-(n : Int))
          | Option.none => Option.none
      else
        match decodeNatAux 0 (digitChar d :: rest) with
        | some n => some ((n : Int))
        | Option.none => Option.none) = some t
    rw [if_neg (digitChar_ne_dash d), ← heq, decode_encode]
    show some (((t.toNat : Nat) : Int)) = some t
    congr 1
    omega

/-- A pydantic suggestion dict survives the store/load serialization pair
unchanged: `suggested_time` is rendered to a string and parsed back, every
other entry (including the nested store dict) is untouched. -/
theorem parse_prepare_suggestionDict (s : ScheduleSuggestion) :
    parse_from_mongo (prepare_for_mongo (suggestionDict s)) = suggestionDict s := by
  have h1 : keyTriggersParse "id" = false := by decide
  have h2 : keyTriggersParse "suggested_time" = true := by decide
  have h3 : keyTriggersParse "reason" = false := by decide
  simp only [suggestionDict, prepare_for_mongo, parse_from_mongo, h1, h2, h3,
    fromiso_iso, if_true, if_false, Bool.false_eq_true, ite_false]

/-- The suggestions array of dicts survives the serialization pair:
`prepareItems`/`parseItems` recurse into each dict item. -/
theorem parseItems_prepareItems_sugg (l : List ScheduleSuggestion) :
    parseItems (prepareItems (l.map fun s => MVal.dict (suggestionDict s))) =
      l.map fun s => MVal.dict (suggestionDict s) := by
  induction l with
  | nil => simp only [List.map_nil, prepareItems, parseItems]
  | cons s rest ih =>
    simp only [List.map_cons, prepareItems, parseItems, parse_prepare_suggestionDict, ih]

/-- C1: every suggestion returned by `generate_schedule_suggestions` occupies
a slot `[suggested_time, suggested_time + duration_minutes]` on which the
source's conflict predicate is false against every calendar event fetched
for that week; a candidate slot with any conflicting event is discarded
entirely, so no suggestion with a conflicting slot is ever emitted. -/
theorem c1_suggestions_conflict_free
    (all_events : List CalendarEvent) (preferences : UserPreferences) (week_start : Int)
    (out : List ScheduleSuggestion)
    (hout : generate_schedule_suggestions all_events preferences week_start = Except.ok out) :
    ∀ s ∈ out,
      ∀ e ∈ get_calendar_events all_events preferences.user_id week_start (week_start + 10080),
        ¬ conflicts s.suggested_time (s.suggested_time + s.duration_minutes) e := by
  intro s hs e he
  rcases generate_ok_elim hout with ⟨raw, hraw, rfl⟩
  have hs₂ : s ∈ raw := (sortDesc_perm raw).mem_iff.mp (List.mem_of_mem_take hs)
  rcases mem_runDays hraw hs₂ with ⟨d, hd, l, hdl, hsl⟩
  rw [runDay_eq] at hdl
  rcases mem_runWindows hdl hsl with ⟨ph, hph, st, et, hst, het, hmem⟩
  rcases mem_slotLoop hmem with ⟨k, hbody, hcond⟩
  rcases mem_slotBody hbody with ⟨htime, hdur, _, _, _, hfree⟩
  rw [htime, hdur]
  exact hfree e he

/-- C4 (amended): the generator performs no duration validation; every
suggestion it emits carries exactly the configured
`shopping_duration_minutes`, so a non-positive configuration flows through
into zero- or negative-length slots instead of raising `InvalidConfiguration`. -/
theorem c4_duration_propagates
    (all_events : List CalendarEvent) (preferences : UserPreferences) (week_start : Int)
    (out : List ScheduleSuggestion)
    (hout : generate_schedule_suggestions all_events preferences week_start = Except.ok out) :
    ∀ s ∈ out, s.duration_minutes = preferences.shopping_duration_minutes := by
  intro s hs
  rcases generate_ok_elim hout with ⟨raw, hraw, rfl⟩
  have hs₂ : s ∈ raw := (sortDesc_perm raw).mem_iff.mp (List.mem_of_mem_take hs)
  rcases mem_runDays hraw hs₂ with ⟨d, hd, l, hdl, hsl⟩
  rw [runDay_eq] at hdl
  rcases mem_runWindows hdl hsl with ⟨ph, hph, st, et, hst, het, hmem⟩
  rcases mem_slotLoop hmem with ⟨k, hbody, hcond⟩
  exact (mem_slotBody hbody).2.1

/-- C5: the returned list is the stable confidence-descending sort of the
discovery-ordered emissions, truncated to the first 5: its length is at most
5, it is pairwise sorted by score descending, the sorted list permutes the
raw one, and for each score value the equal-scored suggestions keep their
discovery order (filter-invariance, the characterisation of stability). -/
theorem c5_sorted_top5
    (all_events : List CalendarEvent) (preferences : UserPreferences) (week_start : Int)
    (c : ℚ) (raw out : List ScheduleSuggestion)
    (hraw : runDays
        (get_calendar_events all_events preferences.user_id week_start (week_start + 10080))
        preferences week_start [0, 1, 2, 3, 4, 5, 6] = Except.ok raw)
    (hout : generate_schedule_suggestions all_events preferences week_start = Except.ok out) :
    out = (sortDesc raw).take 5 ∧
      out.length ≤ 5 ∧
      out.Pairwise (fun a b => b.confidence_score ≤ a.confidence_score) ∧
      (sortDesc raw).Perm raw ∧
      (sortDesc raw).filter (fun s => s.confidence_score == c) =
        raw.filter (fun s => s.confidence_score == c) := by
  rcases generate_ok_elim hout with ⟨raw', hraw', rfl⟩
  rw [hraw] at hraw'
  injection hraw' with hraw'
  subst hraw'
  exact ⟨rfl, List.length_take_le 5 _,
    List.Pairwise.sublist (List.take_sublist 5 _) (sortDesc_pairwise raw),
    sortDesc_perm raw, sortDesc_filter c raw⟩

/-- C6: the slot scan of a window starting at minute `st` and ending at
minute `et` of day `D` enumerates exactly the 1-hour-stepped start instants
whose slot of the configured duration ends no later than the window end
(ending exactly at the end is kept); the loop is the flat map of its body
over that enumeration, and a duration exceeding the window's span yields
zero suggestions. -/
theorem c6_window_enumeration (events : List CalendarEvent) (preferences : UserPreferences)
    (wd : Nat) (D st et : Int) :
    (∀ t, t ∈ candidateStarts preferences.shopping_duration_minutes
        (1440 * D + et) (1440 * D + st) ↔
      ∃ k : ℕ, t = 1440 * D + st + 60 * k ∧
        t + preferences.shopping_duration_minutes ≤ 1440 * D + et) ∧
    slotLoop events preferences wd (1440 * D + et) (1440 * D + st) =
      (candidateStarts preferences.shopping_duration_minutes
        (1440 * D + et) (1440 * D + st)).flatMap (slotBody events preferences wd) ∧
    (et - st < preferences.shopping_duration_minutes →
      slotLoop events preferences wd (1440 * D + et) (1440 * D + st) = []) := by
  refine ⟨fun t => mem_candidateStarts, slotLoop_eq_flatMap events preferences wd _ _, ?_⟩
  intro hspan
  rw [slotLoop_unfold, if_neg (by omega)]

/-- C7 (amended): for a non-negative configured duration, every returned
suggestion's score is `0.8` exactly when the day its `suggested_time` falls
on is a Saturday or Sunday and `0.6` otherwise.  (With a negative duration
the scan can cross midnight, and the score then reflects the window's day
rather than the slot's; see the counterexample.) -/
theorem c7_weekend_confidence
    (all_events : List CalendarEvent) (preferences : UserPreferences) (week_start : Int)
    (out : List ScheduleSuggestion)
    (hdur : 0 ≤ preferences.shopping_duration_minutes)
    (hout : generate_schedule_suggestions all_events preferences week_start = Except.ok out) :
    ∀ s ∈ out,
      s.confidence_score =
        (if dayNameLower ((s.suggested_time.fdiv 1440).emod 7).toNat = "saturday" ∨
            dayNameLower ((s.suggested_time.fdiv 1440).emod 7).toNat = "sunday"
         then mkRat 8 10 else mkRat 6 10) := by
  intro s hs
  rcases generate_ok_elim hout with ⟨raw, hraw, rfl⟩
  have hs₂ : s ∈ raw := (sortDesc_perm raw).mem_iff.mp (List.mem_of_mem_take hs)
  rcases mem_runDays hraw hs₂ with ⟨d, hd, l, hdl, hsl⟩
  rw [runDay_eq] at hdl
  rcases mem_runWindows hdl hsl with ⟨ph, hph, st, et, hst, het, hmem⟩
  rcases mem_slotLoop hmem with ⟨k, hbody, hcond⟩
  rcases mem_slotBody hbody with ⟨htime, hdur_eq, _, _, hconf, _⟩
  obtain ⟨hst0, hst1⟩ := parseTime_bounds hst
  obtain ⟨het0, het1⟩ := parseTime_bounds het
  have hm0 : 0 ≤ st + 60 * (k : Int) := by positivity
  have hm1 : st + 60 * (k : Int) < 1440 := by omega
  have hfd : s.suggested_time.fdiv 1440 = (week_start + 1440 * (d : Int)).fdiv 1440 := by
    rw [htime, add_assoc]
    exact fdiv_1440 _ _ hm0 hm1
  rw [hconf, hfd]

/-- C10: the slot `while` loop reaches its exit condition within an explicit
finite iteration bound on every input — in particular for zero or negative
`shopping_duration_minutes` — because `current_time` advances by a fixed
hour on every iteration; the fuelled rendition of the loop agrees with the
loop itself whenever the fuel covers that bound, so the generator is total. -/
theorem c10_loop_terminates (events : List CalendarEvent) (preferences : UserPreferences)
    (wd : Nat) (slot_end : Int) (fuel : Nat) (cur : Int)
    (hfuel : (slot_end - preferences.shopping_duration_minutes - cur + 60).toNat ≤ 60 * fuel) :
    slotLoopF events preferences wd slot_end fuel cur =
      slotLoop events preferences wd slot_end cur :=
  slotLoopF_eq_slotLoop events preferences wd slot_end fuel cur hfuel

/-- C3 (amended): `get_calendar_events` returns exactly the events whose
`start_time` lies in the closed interval `[start_date, end_date]`; overlap
of the event interval with the window plays no role, and the bounds are
inclusive on both ends (an event starting exactly at `end_date` is kept). -/
theorem c3_start_time_closed_interval
    (all_events : List CalendarEvent) (user_id : String) (start_date end_date : Int)
    (e : CalendarEvent) :
    e ∈ get_calendar_events all_events user_id start_date end_date ↔
      e ∈ all_events ∧ start_date ≤ e.start_time ∧ e.start_time ≤ end_date := by
  simp [get_calendar_events, List.mem_filter]

/-- C2 (amended): in the spec's Saturday scenario the 09:00 candidate
conflicts (the event's start 09:30 falls inside the slot), and the 10:00
candidate ALSO conflicts — the event's end 10:00 equals the slot start, so
`slot_start <= event.end <= slot_end` holds — hence the generator returns
zero suggestions, not two. -/
theorem c2_both_candidates_conflict :
    conflicts 7740 7800 c2event ∧ conflicts 7800 7860 c2event ∧
      (generate_schedule_suggestions [c2event] c2prefs 0).toOption = some [] := by
  decide

/-- C2 counterexample: on the spec's own Saturday scenario (window
09:00-11:00 = minutes 7740-7860 of the week, event 09:30-10:00, duration 60)
the generator returns no suggestions at all — in particular the 10:00
candidate (minute 7800) is NOT retained and no suggestion with confidence
0.8 is returned, contradicting the claim. -/
theorem c2_scenario_returns_nothing :
    generate_schedule_suggestions [c2event] c2prefs 0 = Except.ok [] := rfl

/-- C3 counterexample: an event overlapping the window `[100, 200)` but
starting before it is NOT returned, and an event starting exactly at the
window end IS returned — both contradicting the claimed half-open-overlap
semantics. -/
theorem c3_overlap_claim_fails :
    (c3early.start_time < 200 ∧ 100 < c3early.end_time) ∧
      get_calendar_events [c3early] "u" 100 200 = [] ∧
      get_calendar_events [c3late] "u" 100 200 = [c3late] := by
  decide

/-- C4 counterexample: with `shopping_duration_minutes = 0` the generator
does not fail with any error; it succeeds and returns five zero-length
slot suggestions. -/
theorem c4_zero_duration_not_rejected :
    (generate_schedule_suggestions [] c4xprefs 0).toOption.map
        (List.map fun s => s.duration_minutes) = some [0, 0, 0, 0, 0] := by
  decide

/-- C7 counterexample: with a negative duration the Friday 22:00-23:00 scan
runs past midnight; the suggestion at minute 7200 (Saturday 00:00) carries
confidence 0.6, not the claimed 0.8 for a Saturday slot. -/
theorem c7_saturday_slot_scored_as_weekday :
    (generate_schedule_suggestions [] c7xprefs 0).toOption.map
        (List.map fun s => (s.suggested_time, s.confidence_score)) =
      some [(7080, mkRat 6 10), (7080, mkRat 6 10), (7140, mkRat 6 10),
        (7140, mkRat 6 10), (7200, mkRat 6 10)] ∧
      dayNameLower (((7200 : Int).fdiv 1440).emod 7).toNat = "saturday" ∧
      mkRat 6 10 ≠ mkRat 8 10 := by
  refine ⟨by decide, by decide, by decide⟩

/-- Witness for `c1_suggestions_conflict_free` at a concrete fixture. -/
theorem c1_suggestions_conflict_free_witness :
    generate_schedule_suggestions c1events c1prefs 0 = Except.ok c1out ∧
      c1s ∈ c1out ∧
      c1ev ∈ get_calendar_events c1events c1prefs.user_id 0 (0 + 10080) ∧
      ¬ conflicts c1s.suggested_time (c1s.suggested_time + c1s.duration_minutes) c1ev :=
  ⟨rfl, by decide, by decide,
    c1_suggestions_conflict_free c1events c1prefs 0 c1out rfl c1s (by decide) c1ev (by decide)⟩

/-- Witness for `c4_duration_propagates` at a concrete fixture. -/
theorem c4_duration_propagates_witness :
    generate_schedule_suggestions [] c4wprefs 0 = Except.ok c4wout ∧
      c4ws ∈ c4wout ∧
      c4ws.duration_minutes = c4wprefs.shopping_duration_minutes :=
  ⟨rfl, by decide,
    c4_duration_propagates [] c4wprefs 0 c4wout rfl c4ws (by decide)⟩

/-- Witness for `c5_sorted_top5` at a concrete fixture. -/
theorem c5_sorted_top5_witness :
    runDays (get_calendar_events [] c5wprefs.user_id 0 (0 + 10080)) c5wprefs 0
        [0, 1, 2, 3, 4, 5, 6] = Except.ok [] ∧
      generate_schedule_suggestions [] c5wprefs 0 = Except.ok [] ∧
      (([] : List ScheduleSuggestion) = (sortDesc []).take 5 ∧
        ([] : List ScheduleSuggestion).length ≤ 5 ∧
        ([] : List ScheduleSuggestion).Pairwise
          (fun a b => b.confidence_score ≤ a.confidence_score) ∧
        (sortDesc ([] : List ScheduleSuggestion)).Perm [] ∧
        (sortDesc ([] : List ScheduleSuggestion)).filter
            (fun s => s.confidence_score == mkRat 8 10) =
          List.filter (fun s => s.confidence_score == mkRat 8 10) []) :=
  ⟨rfl, rfl, c5_sorted_top5 [] c5wprefs 0 (mkRat 8 10) [] [] rfl rfl⟩

/-- Witness for the span-exceeding part of `c6_window_enumeration` at a
concrete fixture (120-minute duration, one-hour window). -/
theorem c6_window_enumeration_witness :
    ((600 : Int) - 540 < c6wprefs.shopping_duration_minutes) ∧
      slotLoop [] c6wprefs 0 (1440 * 0 + 600) (1440 * 0 + 540) = [] :=
  ⟨by decide, (c6_window_enumeration [] c6wprefs 0 0 540 600).2.2 (by decide)⟩

/-- Witness for `c7_weekend_confidence` at a concrete fixture. -/
theorem c7_weekend_confidence_witness :
    (0 : Int) ≤ c7wprefs.shopping_duration_minutes ∧
      generate_schedule_suggestions [] c7wprefs 0 = Except.ok c7wout ∧
      c7ws ∈ c7wout ∧
      c7ws.confidence_score =
        (if dayNameLower ((c7ws.suggested_time.fdiv 1440).emod 7).toNat = "saturday" ∨
            dayNameLower ((c7ws.suggested_time.fdiv 1440).emod 7).toNat = "sunday"
         then mkRat 8 10 else mkRat 6 10) :=
  ⟨by decide, rfl, by decide,
    c7_weekend_confidence [] c7wprefs 0 c7wout (by decide) rfl c7ws (by decide)⟩

/-- Witness for `c10_loop_terminates` at a concrete fixture with a negative
duration. -/
theorem c10_loop_terminates_witness :
    ((0 : Int) - c10wprefs.shopping_duration_minutes - 0 + 60).toNat ≤ 60 * 3 ∧
      slotLoopF [] c10wprefs 0 0 3 0 = slotLoop [] c10wprefs 0 0 0 :=
  ⟨by decide, c10_loop_terminates [] c10wprefs 0 0 3 0 (by decide)⟩

/-- C8 (amended): the approval route fails with "Schedule not found" exactly
when either no stored document has the given schedule id, or the first
matching document ALREADY carries this approval (the `$set` then modifies
nothing and `modified_count` is 0); otherwise it succeeds and rewrites the
first matching document's `approved_suggestion_id` and `status`. -/
theorem c8_approval_characterisation (db : List ScheduleDoc)
    (schedule_id suggestion_id : String) :
    approve_suggestion db schedule_id suggestion_id =
      match db.find? (fun r => r.id == schedule_id) with
      | Option.none => Except.error "Schedule not found"
      | some r =>
        if r.approved_suggestion_id = some suggestion_id ∧ r.status = "approved" then
          Except.error "Schedule not found"
        else Except.ok (update_one_approve db schedule_id suggestion_id).1 := by
  induction db with
  | nil => rfl
  | cons d rest ih =>
    by_cases hid : d.id = schedule_id
    · have hfind : (d :: rest).find? (fun r => r.id == schedule_id) = some d := by
        simp [List.find?, hid]
      have hupdate : update_one_approve (d :: rest) schedule_id suggestion_id =
          (({ d with approved_suggestion_id := some suggestion_id, status := "approved" } : ScheduleDoc) :: rest,
            if ({ d with approved_suggestion_id := some suggestion_id, status := "approved" } : ScheduleDoc) = d then 0 else 1) := by
        simp [update_one_approve, hid]
      have hd' : (({ d with approved_suggestion_id := some suggestion_id, status := "approved" } : ScheduleDoc) = d) ↔
          (d.approved_suggestion_id = some suggestion_id ∧ d.status = "approved") := by
        cases d
        simp only [ScheduleDoc.mk.injEq, true_and]
        constructor
        · rintro ⟨h1, h2⟩
          exact ⟨h1.symm, h2.symm⟩
        · rintro ⟨h1, h2⟩
          exact ⟨h1.symm, h2.symm⟩
      rw [hfind]
      simp only [approve_suggestion, hupdate]
      by_cases happ : d.approved_suggestion_id = some suggestion_id ∧ d.status = "approved"
      · rw [if_pos (hd'.mpr happ), if_pos happ]
        rfl
      · have hne : ¬ (({ d with approved_suggestion_id := some suggestion_id, status := "approved" } : ScheduleDoc) = d) := fun h => happ (hd'.mp h)
        rw [if_neg hne, if_neg happ, if_neg (by omega : ¬ (1 : Nat) = 0)]
    · have hbeq : (d.id == schedule_id) = false := by
        simpa using hid
      have hfind : (d :: rest).find? (fun r => r.id == schedule_id) =
          rest.find? (fun r => r.id == schedule_id) := by
        simp [List.find?, hbeq]
      have hupdate : update_one_approve (d :: rest) schedule_id suggestion_id =
          (d :: (update_one_approve rest schedule_id suggestion_id).1,
            (update_one_approve rest schedule_id suggestion_id).2) := by
        simp [update_one_approve, hid]
      rw [hfind]
      simp only [approve_suggestion, hupdate] at ih ⊢
      cases hfr : rest.find? (fun r => r.id == schedule_id) with
      | none =>
        rw [hfr] at ih
        by_cases hz : (update_one_approve rest schedule_id suggestion_id).2 = 0
        · rw [if_pos hz]
        · rw [if_neg hz] at ih
          exact absurd ih (by simp)
      | some r =>
        rw [hfr] at ih
        have hih : (if (update_one_approve rest schedule_id suggestion_id).2 = 0 then
              Except.error "Schedule not found"
            else Except.ok (update_one_approve rest schedule_id suggestion_id).1) =
            (if r.approved_suggestion_id = some suggestion_id ∧ r.status = "approved" then
              Except.error "Schedule not found"
            else Except.ok (update_one_approve rest schedule_id suggestion_id).1) := ih
        show (if (update_one_approve rest schedule_id suggestion_id).2 = 0 then
            Except.error "Schedule not found"
          else Except.ok (d :: (update_one_approve rest schedule_id suggestion_id).1)) =
          (if r.approved_suggestion_id = some suggestion_id ∧ r.status = "approved" then
            Except.error "Schedule not found"
          else Except.ok (d :: (update_one_approve rest schedule_id suggestion_id).1))
        by_cases happ : r.approved_suggestion_id = some suggestion_id ∧ r.status = "approved"
        · rw [if_pos happ]
          rw [if_pos happ] at hih
          by_cases hz : (update_one_approve rest schedule_id suggestion_id).2 = 0
          · rw [if_pos hz]
          · rw [if_neg hz] at hih
            exact absurd hih (by simp)
        · rw [if_neg happ]
          rw [if_neg happ] at hih
          by_cases hz : (update_one_approve rest schedule_id suggestion_id).2 = 0
          · rw [if_pos hz] at hih
            exact absurd hih (by simp)
          · rw [if_neg hz]

/-- C8 counterexample: a schedule document with the requested id exists, yet
re-approving it with the values it already carries makes `update_one` modify
nothing, so the route raises the NotFound error — the claimed
"fails exactly when no record matches" is false. -/
theorem c8_matching_record_rejected :
    ([c8doc].find? (fun r => r.id == "s1")).isSome = true ∧
      approve_suggestion [c8doc] "s1" "g1" = Except.error "Schedule not found" := by
  refine ⟨by decide, rfl⟩

/-- C9: serializing a `WeeklySchedule` dict with `prepare_for_mongo` and
deserializing with `parse_from_mongo` reconstructs the `suggestions` entry
exactly — identical suggestion dicts in identical order, hence identical
ordering, confidence scores and store data.  (Of the other fields,
`created_at` round-trips too; `week_start` is left as a string by
`parse_from_mongo` because its key ends in neither `_at` nor `_time`, but
the claim's observables are the suggestion list's contents.) -/
theorem c9_suggestions_roundtrip (ws : WeeklySchedule) :
    dictGet "suggestions" (parse_from_mongo (prepare_for_mongo (weeklyScheduleDict ws))) =
      some (MVal.list (ws.suggestions.map fun s => MVal.dict (suggestionDict s))) ∧
    dictGet "suggestions" (weeklyScheduleDict ws) =
      some (MVal.list (ws.suggestions.map fun s => MVal.dict (suggestionDict s))) := by
  have h1 : keyTriggersParse "id" = false := by decide
  have h2 : keyTriggersParse "user_id" = false := by decide
  have h3 : keyTriggersParse "week_start" = false := by decide
  have h4 : keyTriggersParse "approved_suggestion_id" = false := by decide
  have h5 : keyTriggersParse "status" = false := by decide
  have hk1 : (("id" : String) == "suggestions") = false := by decide
  have hk2 : (("user_id" : String) == "suggestions") = false := by decide
  have hk3 : (("week_start" : String) == "suggestions") = false := by decide
  have hk4 : (("suggestions" : String) == "suggestions") = true := by decide
  constructor
  · cases happ : ws.approved_suggestion_id with
    | none =>
      simp only [weeklyScheduleDict, happ, prepare_for_mongo, parse_from_mongo,
        h1, h2, h3, h4, h5, parseItems_prepareItems_sugg,
        Bool.false_eq_true, if_false, dictGet, List.find?, hk1, hk2, hk3, hk4,
        Option.map_some']
    | some a =>
      simp only [weeklyScheduleDict, happ, prepare_for_mongo, parse_from_mongo,
        h1, h2, h3, h4, h5, parseItems_prepareItems_sugg,
        Bool.false_eq_true, if_false, dictGet, List.find?, hk1, hk2, hk3, hk4,
        Option.map_some']
  · simp only [weeklyScheduleDict, dictGet, List.find?, hk1, hk2, hk3, hk4,
      Option.map_some']
